import Mathlib

/-!
Verification of the partition-and-dilution planner of `peptide_pooler.py`.

The development shallowly embeds the planning core of `main` (the code between
the `df.sort_values(by="conc")` call and the `mix_concentration` column
assignment).  Concentrations and volumes are modelled as rationals; pandas/
IEEE `NaN` values, which arise exactly when the inner group is empty and its
maximum concentration is undefined, are modelled as `none : Option ℚ`, with
comparisons against `NaN` evaluating to `false` as in pandas.  Both pandas
`Series.round` and Python's built-in `round` round half to even, modelled by
`roundHalfEven`.  Python slice indexing `df[:b]` / `df[b:]`, which is also
taken at `b = -1` by the shrink loop, is modelled by `pyIdx`.
-/

namespace PeptidePooler

/-- The configuration constants read from `config.yaml`: the three volume
bounds and the three-tier dilution-factor table. -/
structure Config where
  min_volume : ℚ
  max_volume : ℚ
  max_result_volume : ℚ
  lowVolume : ℚ
  lowFactor : ℚ
  mediumVolume : ℚ
  mediumFactor : ℚ
  highVolume : ℚ
  highFactor : ℚ
deriving DecidableEq

/-- Round half to even, the rounding rule of both `pandas.Series.round` and
Python's built-in `round`, used everywhere in the source. -/
def roundHalfEven (q : ℚ) : ℚ :=
  if 2 * q < 2 * ⌊q⌋ + 1 then (⌊q⌋ : ℚ)
  else if 2 * ⌊q⌋ + 1 < 2 * q then (⌊q⌋ : ℚ) + 1
  else if ⌊q⌋ % 2 = 0 then (⌊q⌋ : ℚ) else (⌊q⌋ : ℚ) + 1

/-- `Series.max`: `none` on an empty series (pandas yields `NaN` there). -/
def seriesMax : List ℚ → Option ℚ
  | [] => none
  | c :: rest =>
    match seriesMax rest with
    | none => some c
    | some m => some (if c ≤ m then m else c)

/-- Python slice index: `df[:b]` keeps the first `pyIdx n b` rows and
`df[b:]` drops them; a negative `b` counts from the end of the frame. -/
def pyIdx (n : ℕ) (b : ℤ) : ℕ :=
  if 0 ≤ b then b.toNat else ((n : ℤ) + b).toNat

/-- `delute_volumes = (half_amount / half_df['conc']).round()` where
`half_amount = m * min_volume` and `m` is the inner group's maximum. -/
def deluteVolumes (minVolume m : ℚ) (inner : List ℚ) : List ℚ :=
  inner.map (fun c => roundHalfEven (m * minVolume / c))

/-- The dilute-volume series computed for candidate boundary `b`; empty when
the inner group is empty (its maximum, hence `half_amount`, is `NaN`). -/
def searchDv (cfg : Config) (cs : List ℚ) (b : ℤ) : List ℚ :=
  match seriesMax (cs.take (pyIdx cs.length b)) with
  | none => []
  | some m => deluteVolumes cfg.min_volume m (cs.take (pyIdx cs.length b))

/-- The two feasibility criteria of the source at candidate boundary `b`:
`criteria_fitting = inner_volume + outer_volume <= max_result_volume` and
`criteria_lowest_fits = delute_volumes.max() < max_volume`.  The `max` of an
empty series is `NaN` and `NaN < x` is `False` in pandas. -/
def searchCrit (cfg : Config) (cs : List ℚ) (b : ℤ) : Bool × Bool :=
  (decide ((searchDv cfg cs b).sum
      + ((cs.drop (pyIdx cs.length b)).length : ℚ) * cfg.min_volume
      ≤ cfg.max_result_volume),
   match seriesMax (searchDv cfg cs b) with
   | none => false
   | some mx => decide (mx < cfg.max_volume))

/-- `criteria_fitting and criteria_lowest_fits`. -/
def bothCriteria (cfg : Config) (cs : List ℚ) (b : ℤ) : Bool :=
  (searchCrit cfg cs b).1 && (searchCrit cfg cs b).2

/-- The grow loop of the source: while both criteria hold, if
`half_index <= n - 1` record it as `last_success` and advance, otherwise set
`last_success = -1` and stop.  Fuel-indexed; `cs.length + 2` steps always
suffice. -/
def growLoop (cfg : Config) (cs : List ℚ) : ℕ → ℤ → ℤ → ℤ
  | 0, _, last => last
  | fuel + 1, b, last =>
    if bothCriteria cfg cs b then
      if b ≤ (cs.length : ℤ) - 1 then growLoop cfg cs fuel (b + 1) b
      else -1
    else last

/-- The shrink loop of the source: while the criteria do not both hold, if
`half_index >= 0` decrement, re-evaluate and record `last_success`, otherwise
set `last_success = -1` and stop. -/
def shrinkLoop (cfg : Config) (cs : List ℚ) : ℕ → ℤ → ℤ → ℤ
  | 0, _, last => last
  | fuel + 1, b, last =>
    if bothCriteria cfg cs b then last
    else
      if 0 ≤ b then shrinkLoop cfg cs fuel (b - 1) (b - 1)
      else -1

/-- `last_success` after the two-phase search, started at `half_index = n // 2`:
the grow branch when both criteria hold there, the shrink branch otherwise. -/
def lastSuccess (cfg : Config) (cs : List ℚ) : ℤ :=
  if bothCriteria cfg cs ((cs.length / 2 : ℕ) : ℤ) then
    growLoop cfg cs (cs.length + 2) ((cs.length / 2 : ℕ) : ℤ) ((cs.length / 2 : ℕ) : ℤ)
  else
    shrinkLoop cfg cs (cs.length + 2) ((cs.length / 2 : ℕ) : ℤ) ((cs.length / 2 : ℕ) : ℤ)

/-- The boundary the planner actually uses: `last_success`, or `0` when the
search failed (`last_success = -1`). -/
def finalBoundaryZ (cfg : Config) (cs : List ℚ) : ℤ :=
  if lastSuccess cfg cs ≠ -1 then lastSuccess cfg cs else 0

/-- One annotated record of the output table.  `water_for_delution` and
`deluted_concentration` can be `NaN` (modelled `none`) when the inner group is
empty; the other derived fields are always real numbers. -/
structure Row where
  conc : ℚ
  water_for_delution : Option ℚ
  peptide_for_delution : ℚ
  deluted_volume : ℚ
  deluted_concentration : Option ℚ
deriving DecidableEq

/-- A pandas comparison of a possibly-`NaN` value with a threshold: any
comparison with `NaN` is `False`. -/
def nanLe (x : Option ℚ) (t : ℚ) : Bool :=
  match x with
  | some v => decide (v ≤ t)
  | none => false

/-- Python `round` of a possibly-`NaN` value: `round(nan)` is `nan`. -/
def nanRound (x : Option ℚ) : Option ℚ :=
  x.map roundHalfEven

/-- Step 2 of the planner (source lines 211-214) for an outer-group record of
concentration `c`, given the inner maximum `hmc` (or `NaN` when the inner
group is empty). -/
def outerStep2 (cfg : Config) (hmc : Option ℚ) (c : ℚ) : Row :=
  { conc := c
    water_for_delution := hmc.map (fun m => cfg.min_volume * (c - m) / m)
    peptide_for_delution := cfg.min_volume
    deluted_volume := cfg.min_volume
    deluted_concentration :=
      (hmc.map (fun m => cfg.min_volume * (c - m) / m)).map
        (fun w => c * cfg.min_volume / (cfg.min_volume + w)) }

/-- The tiered scaling pass (source lines 216-234).  The loop iterates over an
`iterrows()` snapshot taken before any write, so every `row[...]` read — the
tier selection and the medium/high concentration recomputation included —
sees the step-2 values, while the writes land in the frame. -/
def tierPass (cfg : Config) (r : Row) : Row :=
  if nanLe r.water_for_delution cfg.lowVolume then
    { r with
      water_for_delution :=
        r.water_for_delution.map (fun w => roundHalfEven (w * cfg.lowFactor))
      peptide_for_delution := roundHalfEven (r.peptide_for_delution * cfg.lowFactor) }
  else if nanLe r.water_for_delution cfg.mediumVolume then
    { r with
      water_for_delution :=
        r.water_for_delution.map (fun w => roundHalfEven (w * cfg.mediumFactor))
      peptide_for_delution := roundHalfEven (r.peptide_for_delution * cfg.mediumFactor)
      deluted_concentration :=
        r.water_for_delution.map
          (fun w => r.conc * r.peptide_for_delution / (r.peptide_for_delution + w)) }
  else if nanLe r.water_for_delution cfg.highVolume then
    { r with
      water_for_delution :=
        r.water_for_delution.map (fun w => roundHalfEven (w * cfg.highFactor))
      peptide_for_delution := roundHalfEven (r.peptide_for_delution * cfg.highFactor)
      deluted_concentration :=
        r.water_for_delution.map
          (fun w => r.conc * r.peptide_for_delution / (r.peptide_for_delution + w)) }
  else
    { r with
      water_for_delution := nanRound r.water_for_delution
      peptide_for_delution := roundHalfEven r.peptide_for_delution }

/-- An inner-group record in the final table: `water_for_delution` and
`peptide_for_delution` keep their `0.0` initialisation, and source lines
236-237 set `deluted_concentration = c` and
`deluted_volume = round(half_amount / c)` with `half_amount = m * min_volume`. -/
def innerRow (cfg : Config) (m : ℚ) (c : ℚ) : Row :=
  { conc := c
    water_for_delution := some 0
    peptide_for_delution := 0
    deluted_volume := roundHalfEven (m * cfg.min_volume / c)
    deluted_concentration := some c }

/-- The planner's output table at boundary `b` (source lines 191-237), in the
concentration-sorted row order of the frame: the first `pyIdx n b` rows are
the inner group, the rest the outer group. -/
def planRows (cfg : Config) (cs : List ℚ) (b : ℤ) : List Row :=
  match seriesMax (cs.take (pyIdx cs.length b)) with
  | none =>
      (cs.drop (pyIdx cs.length b)).map (fun c => tierPass cfg (outerStep2 cfg none c))
  | some m =>
      (cs.take (pyIdx cs.length b)).map (fun c => innerRow cfg m c)
        ++ (cs.drop (pyIdx cs.length b)).map
            (fun c => tierPass cfg (outerStep2 cfg (some m) c))

/-- `total_mix_volume = df['deluted_volume'].sum()`. -/
def totalMixVolume (cfg : Config) (cs : List ℚ) (b : ℤ) : ℚ :=
  ((planRows cfg cs b).map (fun r => r.deluted_volume)).sum

/-- `mix_concentration = deluted_concentration * deluted_volume /
total_mix_volume` for one record. -/
def mixConcentration (cfg : Config) (cs : List ℚ) (b : ℤ) (r : Row) : Option ℚ :=
  r.deluted_concentration.map
    (fun d => d * r.deluted_volume / totalMixVolume cfg cs b)

/-- Modelled from the spec: the tier pass as claim C5 reads it, where the
medium and high tiers recompute `deluted_concentration` from the now-scaled
(rounded) volumes.  This is the comparison point for claim C5 only; the
source's behaviour is `tierPass`. -/
def tierPassScaledRecompute (cfg : Config) (r : Row) : Row :=
  if nanLe r.water_for_delution cfg.lowVolume then
    { r with
      water_for_delution :=
        r.water_for_delution.map (fun w => roundHalfEven (w * cfg.lowFactor))
      peptide_for_delution := roundHalfEven (r.peptide_for_delution * cfg.lowFactor) }
  else if nanLe r.water_for_delution cfg.mediumVolume then
    { r with
      water_for_delution :=
        r.water_for_delution.map (fun w => roundHalfEven (w * cfg.mediumFactor))
      peptide_for_delution := roundHalfEven (r.peptide_for_delution * cfg.mediumFactor)
      deluted_concentration :=
        r.water_for_delution.map
          (fun w => r.conc * roundHalfEven (r.peptide_for_delution * cfg.mediumFactor)
            / (roundHalfEven (r.peptide_for_delution * cfg.mediumFactor)
              + roundHalfEven (w * cfg.mediumFactor))) }
  else if nanLe r.water_for_delution cfg.highVolume then
    { r with
      water_for_delution :=
        r.water_for_delution.map (fun w => roundHalfEven (w * cfg.highFactor))
      peptide_for_delution := roundHalfEven (r.peptide_for_delution * cfg.highFactor)
      deluted_concentration :=
        r.water_for_delution.map
          (fun w => r.conc * roundHalfEven (r.peptide_for_delution * cfg.highFactor)
            / (roundHalfEven (r.peptide_for_delution * cfg.highFactor)
              + roundHalfEven (w * cfg.highFactor))) }
  else
    { r with
      water_for_delution := nanRound r.water_for_delution
      peptide_for_delution := roundHalfEven r.peptide_for_delution }

/-- The concrete configuration of the spec's scenario:
`min_pipette_volume = 2`, `max_peptide_usage_volume = 50`,
`max_pool_volume = 20`, tiers low(2, 5), medium(10, 2), high(30, 1). -/
def cfgEx : Config :=
  { min_volume := 2, max_volume := 50, max_result_volume := 20
    lowVolume := 2, lowFactor := 5
    mediumVolume := 10, mediumFactor := 2
    highVolume := 30, highFactor := 1 }

/-- The concrete concentration list of the spec's scenario. -/
def csEx : List ℚ := [1, 2, 4, 100]

/-- A configuration whose pool ceiling nothing fits under, used to exercise
the total-failure path of the shrink branch. -/
def cfgTight : Config :=
  { cfgEx with max_result_volume := 1 }

/-! ### Helper lemmas: `pyIdx` at concrete arguments -/

lemma pyIdx_natCast (n b : ℕ) : pyIdx n (b : ℤ) = b := by
  unfold pyIdx
  rw [if_pos (Int.natCast_nonneg b), Int.toNat_natCast]

lemma pyIdx_zero (n : ℕ) : pyIdx n 0 = 0 := rfl

lemma pyIdx_one (n : ℕ) : pyIdx n 1 = 1 := rfl

lemma pyIdx_two (n : ℕ) : pyIdx n 2 = 2 := rfl

lemma pyIdx_three (n : ℕ) : pyIdx n 3 = 3 := rfl

lemma pyIdx_four (n : ℕ) : pyIdx n 4 = 4 := rfl

/-! ### Helper lemmas: `seriesMax` computes the maximum of a series -/

lemma seriesMax_eq_none : ∀ {l : List ℚ}, seriesMax l = none → l = [] := by
  intro l h
  cases l with
  | nil => rfl
  | cons c t =>
    exfalso
    rw [seriesMax] at h
    cases ht : seriesMax t <;> simp [ht] at h

lemma seriesMax_mem : ∀ {l : List ℚ} {m : ℚ}, seriesMax l = some m → m ∈ l := by
  intro l
  induction l with
  | nil => intro m h; simp [seriesMax] at h
  | cons c t ih =>
    intro m h
    rw [seriesMax] at h
    cases ht : seriesMax t with
    | none => rw [ht] at h; simp at h; simp [h]
    | some mt =>
      rw [ht] at h
      simp at h
      by_cases hc : c ≤ mt
      · rw [if_pos hc] at h
        subst h
        exact List.mem_cons_of_mem c (ih ht)
      · rw [if_neg hc] at h
        subst h
        exact List.mem_cons_self c t

lemma seriesMax_le : ∀ {l : List ℚ} {m : ℚ}, seriesMax l = some m → ∀ x ∈ l, x ≤ m := by
  intro l
  induction l with
  | nil => intro m h; simp [seriesMax] at h
  | cons c t ih =>
    intro m h x hx
    rw [seriesMax] at h
    cases ht : seriesMax t with
    | none =>
      rw [ht] at h
      simp at h
      have := seriesMax_eq_none ht
      subst this
      simp at hx
      subst hx; subst h; rfl
    | some mt =>
      rw [ht] at h
      simp at h
      rcases List.mem_cons.mp hx with rfl | hxt
      · subst h
        by_cases hc : x ≤ mt
        · rw [if_pos hc]; exact hc
        · rw [if_neg hc]
      · have hxle := ih ht x hxt
        subst h
        by_cases hc : c ≤ mt
        · rw [if_pos hc]; exact hxle
        · rw [if_neg hc]; exact le_trans hxle (le_of_not_le hc)

lemma seriesMax_isSome {l : List ℚ} (h : l ≠ []) : ∃ m, seriesMax l = some m := by
  cases l with
  | nil => exact absurd rfl h
  | cons c t =>
    rw [seriesMax]
    cases ht : seriesMax t with
    | none => exact ⟨c, rfl⟩
    | some mt => exact ⟨if c ≤ mt then mt else c, rfl⟩

lemma seriesMax_eq_max {l : List ℚ} {m : ℚ} (hmem : m ∈ l) (hmax : ∀ x ∈ l, x ≤ m) :
    seriesMax l = some m := by
  obtain ⟨k, hk⟩ := seriesMax_isSome (List.ne_nil_of_mem hmem)
  have h1 : k ≤ m := hmax k (seriesMax_mem hk)
  have h2 : m ≤ k := seriesMax_le hk m hmem
  rw [hk, le_antisymm h1 h2]

/-! ### Helper lemmas: one-step unfoldings of the search loops -/

lemma growLoop_succ (cfg : Config) (cs : List ℚ) (fuel : ℕ) (b last : ℤ) :
    growLoop cfg cs (fuel + 1) b last =
      if bothCriteria cfg cs b then
        if b ≤ (cs.length : ℤ) - 1 then growLoop cfg cs fuel (b + 1) b else -1
      else last := rfl

lemma shrinkLoop_succ (cfg : Config) (cs : List ℚ) (fuel : ℕ) (b last : ℤ) :
    shrinkLoop cfg cs (fuel + 1) b last =
      if bothCriteria cfg cs b then last
      else if 0 ≤ b then shrinkLoop cfg cs fuel (b - 1) (b - 1) else -1 := rfl

/-- Full characterisation of the grow loop: started at a boundary where both
criteria hold, it either exhausts the range with every candidate up to `n`
satisfying both criteria (and yields `-1`), or it stops at the last `k` for
which both criteria held, the criteria failing at `k + 1`. -/
lemma growLoop_spec (cfg : Config) (cs : List ℚ) :
    ∀ (fuel : ℕ) (b last : ℤ), 0 ≤ b → b ≤ (cs.length : ℤ) →
    (cs.length : ℤ) - b + 2 ≤ (fuel : ℤ) → bothCriteria cfg cs b = true →
    (growLoop cfg cs fuel b last = -1 ∧
      ∀ j : ℤ, b ≤ j → j ≤ (cs.length : ℤ) → bothCriteria cfg cs j = true) ∨
    (∃ k : ℤ, growLoop cfg cs fuel b last = k ∧ b ≤ k ∧ k ≤ (cs.length : ℤ) - 1 ∧
      (∀ j : ℤ, b ≤ j → j ≤ k → bothCriteria cfg cs j = true) ∧
      bothCriteria cfg cs (k + 1) = false) := by
  intro fuel
  induction fuel with
  | zero =>
    intro b last hb0 hbn hf hboth
    exfalso
    simp only [Nat.cast_zero] at hf
    omega
  | succ fuel ih =>
    intro b last hb0 hbn hf hboth
    rw [growLoop_succ, if_pos hboth]
    by_cases hble : b ≤ (cs.length : ℤ) - 1
    · rw [if_pos hble]
      cases hb1 : bothCriteria cfg cs (b + 1) with
      | true =>
        rcases ih (b + 1) b (by omega) (by omega) (by push_cast at hf ⊢; omega) hb1 with
          ⟨h1, h2⟩ | ⟨k, h1, h2, h3, h4, h5⟩
        · left
          refine ⟨h1, fun j hj1 hj2 => ?_⟩
          rcases eq_or_lt_of_le hj1 with rfl | hlt
          · exact hboth
          · exact h2 j (by omega) hj2
        · right
          refine ⟨k, h1, by omega, h3, fun j hj1 hj2 => ?_, h5⟩
          rcases eq_or_lt_of_le hj1 with rfl | hlt
          · exact hboth
          · exact h4 j (by omega) hj2
      | false =>
        have hfuel : fuel ≠ 0 := by
          intro h
          subst h
          push_cast at hf
          omega
        obtain ⟨f, rfl⟩ := Nat.exists_eq_succ_of_ne_zero hfuel
        right
        refine ⟨b, ?_, le_refl b, hble, fun j hj1 hj2 => ?_, hb1⟩
        · rw [growLoop_succ, if_neg (by simp [hb1])]
        · have : j = b := le_antisymm hj2 hj1
          subst this
          exact hboth
    · rw [if_neg hble]
      left
      refine ⟨rfl, fun j hj1 hj2 => ?_⟩
      have : j = b := by omega
      subst this
      exact hboth

/-- Full characterisation of the shrink loop: started at a boundary where the
criteria do not both hold, it either stops at the first (largest) `k ≥ 0`
below the start at which both criteria hold, or it runs off the low end with
no candidate in `[0, b]` satisfying both criteria and yields `-1`. -/
lemma shrinkLoop_spec (cfg : Config) (cs : List ℚ) :
    ∀ (fuel : ℕ) (b : ℤ), -1 ≤ b → b + 2 ≤ (fuel : ℤ) → bothCriteria cfg cs b = false →
    (∃ k : ℤ, shrinkLoop cfg cs fuel b b = k ∧ 0 ≤ k ∧ k < b ∧
      bothCriteria cfg cs k = true ∧
      (∀ j : ℤ, k < j → j ≤ b → bothCriteria cfg cs j = false)) ∨
    (shrinkLoop cfg cs fuel b b = -1 ∧
      ∀ j : ℤ, 0 ≤ j → j ≤ b → bothCriteria cfg cs j = false) := by
  intro fuel
  induction fuel with
  | zero =>
    intro b hb hf hboth
    exfalso
    simp only [Nat.cast_zero] at hf
    omega
  | succ fuel ih =>
    intro b hb hf hboth
    rw [shrinkLoop_succ, if_neg (by simp [hboth])]
    by_cases h0b : 0 ≤ b
    · rw [if_pos h0b]
      cases hb1 : bothCriteria cfg cs (b - 1) with
      | false =>
        rcases ih (b - 1) (by omega) (by push_cast at hf ⊢; omega) hb1 with
          ⟨k, h1, h2, h3, h4, h5⟩ | ⟨h1, h2⟩
        · left
          refine ⟨k, h1, h2, by omega, h4, fun j hj1 hj2 => ?_⟩
          rcases eq_or_lt_of_le hj2 with rfl | hlt
          · exact hboth
          · exact h5 j hj1 (by omega)
        · right
          refine ⟨h1, fun j hj1 hj2 => ?_⟩
          rcases eq_or_lt_of_le hj2 with rfl | hlt
          · exact hboth
          · exact h2 j hj1 (by omega)
      | true =>
        have hfuel : fuel ≠ 0 := by
          intro h
          subst h
          push_cast at hf
          omega
        obtain ⟨f, rfl⟩ := Nat.exists_eq_succ_of_ne_zero hfuel
        have hres : shrinkLoop cfg cs (f + 1) (b - 1) (b - 1) = b - 1 := by
          rw [shrinkLoop_succ, if_pos hb1]
        by_cases hbz : b = 0
        · subst hbz
          right
          refine ⟨by rw [hres]; norm_num, fun j hj1 hj2 => ?_⟩
          have : j = 0 := by omega
          subst this
          exact hboth
        · left
          refine ⟨b - 1, hres, by omega, by omega, hb1, fun j hj1 hj2 => ?_⟩
          have : j = b := by omega
          subst this
          exact hboth
    · rw [if_neg h0b]
      right
      refine ⟨rfl, fun j hj1 hj2 => ?_⟩
      omega

/-- `lastSuccess` through the grow branch, as characterised by `growLoop_spec`. -/
lemma lastSuccess_grow_char (cfg : Config) (cs : List ℚ)
    (h0 : bothCriteria cfg cs ((cs.length / 2 : ℕ) : ℤ) = true) :
    (lastSuccess cfg cs = -1 ∧
      ∀ j : ℤ, ((cs.length / 2 : ℕ) : ℤ) ≤ j → j ≤ (cs.length : ℤ) →
        bothCriteria cfg cs j = true) ∨
    (∃ k : ℤ, lastSuccess cfg cs = k ∧ ((cs.length / 2 : ℕ) : ℤ) ≤ k ∧
      k ≤ (cs.length : ℤ) - 1 ∧
      (∀ j : ℤ, ((cs.length / 2 : ℕ) : ℤ) ≤ j → j ≤ k → bothCriteria cfg cs j = true) ∧
      bothCriteria cfg cs (k + 1) = false) := by
  unfold lastSuccess
  rw [if_pos h0]
  exact growLoop_spec cfg cs (cs.length + 2) _ _ (Int.natCast_nonneg _)
    (by exact_mod_cast Nat.cast_le.mpr (Nat.div_le_self cs.length 2))
    (by push_cast; omega) h0

/-- `lastSuccess` through the shrink branch, as characterised by
`shrinkLoop_spec`. -/
lemma lastSuccess_shrink_char (cfg : Config) (cs : List ℚ)
    (h0 : bothCriteria cfg cs ((cs.length / 2 : ℕ) : ℤ) = false) :
    (∃ k : ℤ, lastSuccess cfg cs = k ∧ 0 ≤ k ∧ k < ((cs.length / 2 : ℕ) : ℤ) ∧
      bothCriteria cfg cs k = true ∧
      (∀ j : ℤ, k < j → j ≤ ((cs.length / 2 : ℕ) : ℤ) → bothCriteria cfg cs j = false)) ∨
    (lastSuccess cfg cs = -1 ∧
      ∀ j : ℤ, 0 ≤ j → j ≤ ((cs.length / 2 : ℕ) : ℤ) → bothCriteria cfg cs j = false) := by
  unfold lastSuccess
  rw [if_neg (by rw [h0]; exact Bool.false_ne_true)]
  exact shrinkLoop_spec cfg cs (cs.length + 2) _
    (by have := Int.natCast_nonneg (cs.length / 2); omega)
    (by push_cast; have := Nat.div_le_self cs.length 2; omega) h0

/-- A non-failed search result is a nonnegative boundary at which both
criteria hold. -/
lemma lastSuccess_result (cfg : Config) (cs : List ℚ)
    (hne : lastSuccess cfg cs ≠ -1) :
    0 ≤ lastSuccess cfg cs ∧ bothCriteria cfg cs (lastSuccess cfg cs) = true := by
  cases h0 : bothCriteria cfg cs ((cs.length / 2 : ℕ) : ℤ) with
  | true =>
    rcases lastSuccess_grow_char cfg cs h0 with ⟨h1, _⟩ | ⟨k, h1, h2, _, h4, _⟩
    · exact absurd h1 hne
    · rw [h1]
      exact ⟨le_trans (Int.natCast_nonneg _) h2, h4 k h2 (le_refl k)⟩
  | false =>
    rcases lastSuccess_shrink_char cfg cs h0 with ⟨k, h1, h2, _, h4, _⟩ | ⟨h1, _⟩
    · rw [h1]
      exact ⟨h2, h4⟩
    · exact absurd h1 hne

/-! ### Concrete evaluations on the spec scenario and degenerate inputs -/

lemma searchDv_ex2 : searchDv cfgEx csEx 2 = [4, 2] := by
  norm_num [searchDv, pyIdx_two, csEx, cfgEx, seriesMax, deluteVolumes, roundHalfEven]

lemma searchCrit_ex2 : searchCrit cfgEx csEx 2 = (true, true) := by
  norm_num [searchCrit, searchDv, pyIdx_two, csEx, cfgEx, seriesMax, deluteVolumes,
    roundHalfEven]

lemma searchCrit_ex3 : searchCrit cfgEx csEx 3 = (true, true) := by
  norm_num [searchCrit, searchDv, pyIdx_three, csEx, cfgEx, seriesMax, deluteVolumes,
    roundHalfEven]

lemma searchCrit_ex4 : searchCrit cfgEx csEx 4 = (false, false) := by
  norm_num [searchCrit, searchDv, pyIdx_four, csEx, cfgEx, seriesMax, deluteVolumes,
    roundHalfEven]

lemma bothCriteria_ex2 : bothCriteria cfgEx csEx 2 = true := by
  rw [bothCriteria, searchCrit_ex2]; rfl

lemma bothCriteria_ex3 : bothCriteria cfgEx csEx 3 = true := by
  rw [bothCriteria, searchCrit_ex3]; rfl

lemma bothCriteria_ex4 : bothCriteria cfgEx csEx 4 = false := by
  rw [bothCriteria, searchCrit_ex4]; rfl

lemma searchCrit_tight1 : searchCrit cfgTight [1, 100] 1 = (false, true) := by
  norm_num [searchCrit, searchDv, pyIdx_one, cfgTight, cfgEx, seriesMax, deluteVolumes,
    roundHalfEven]

lemma searchCrit_tight0 : searchCrit cfgTight [1, 100] 0 = (false, false) := by
  norm_num [searchCrit, searchDv, pyIdx_zero, cfgTight, cfgEx, seriesMax, deluteVolumes,
    roundHalfEven]

lemma bothCriteria_tight1 : bothCriteria cfgTight [1, 100] 1 = false := by
  rw [bothCriteria, searchCrit_tight1]; rfl

lemma bothCriteria_tight0 : bothCriteria cfgTight [1, 100] 0 = false := by
  rw [bothCriteria, searchCrit_tight0]; rfl

lemma searchCrit_single0 : searchCrit cfgEx [(5 : ℚ)] 0 = (true, false) := by
  norm_num [searchCrit, searchDv, pyIdx_zero, cfgEx, seriesMax, deluteVolumes, roundHalfEven]

lemma bothCriteria_single0 : bothCriteria cfgEx [(5 : ℚ)] 0 = false := by
  rw [bothCriteria, searchCrit_single0]; rfl

lemma searchCrit_nil0 : searchCrit cfgEx [] 0 = (true, false) := by
  norm_num [searchCrit, searchDv, pyIdx_zero, cfgEx, seriesMax, deluteVolumes, roundHalfEven]

lemma bothCriteria_nil0 : bothCriteria cfgEx [] 0 = false := by
  rw [bothCriteria, searchCrit_nil0]; rfl

lemma lastSuccess_ex : lastSuccess cfgEx csEx = 3 := by
  have hb0 : ((csEx.length / 2 : ℕ) : ℤ) = 2 := by norm_num [csEx]
  have h0 : bothCriteria cfgEx csEx ((csEx.length / 2 : ℕ) : ℤ) = true := by
    rw [hb0]; exact bothCriteria_ex2
  have hn : (csEx.length : ℤ) = 4 := by norm_num [csEx]
  rcases lastSuccess_grow_char cfgEx csEx h0 with ⟨_, h2⟩ | ⟨k, h1, h2, h3, _, h5⟩
  · exfalso
    have := h2 4 (by rw [hb0]; norm_num) (by rw [hn])
    rw [bothCriteria_ex4] at this
    exact Bool.false_ne_true this
  · rw [hb0] at h2
    rw [hn] at h3
    have hk : k = 2 ∨ k = 3 := by omega
    rcases hk with rfl | rfl
    · exfalso
      have : (2 : ℤ) + 1 = 3 := by norm_num
      rw [this, bothCriteria_ex3] at h5
      simp at h5
    · exact h1

lemma finalBoundary_ex : finalBoundaryZ cfgEx csEx = 3 := by
  rw [finalBoundaryZ, lastSuccess_ex]
  norm_num

lemma lastSuccess_tight : lastSuccess cfgTight [1, 100] = -1 := by
  have hb0 : ((([1, 100] : List ℚ).length / 2 : ℕ) : ℤ) = 1 := by norm_num
  have h0 : bothCriteria cfgTight [1, 100] ((([1, 100] : List ℚ).length / 2 : ℕ) : ℤ)
      = false := by rw [hb0]; exact bothCriteria_tight1
  rcases lastSuccess_shrink_char cfgTight [1, 100] h0 with ⟨k, _, h2, h3, h4, _⟩ | ⟨h1, _⟩
  · exfalso
    rw [hb0] at h3
    have hk : k = 0 := by omega
    subst hk
    rw [bothCriteria_tight0] at h4
    exact Bool.false_ne_true h4
  · exact h1

lemma lastSuccess_single : lastSuccess cfgEx [(5 : ℚ)] = -1 := by
  have hb0 : ((([(5 : ℚ)] : List ℚ).length / 2 : ℕ) : ℤ) = 0 := by norm_num
  have h0 : bothCriteria cfgEx [(5 : ℚ)] ((([(5 : ℚ)] : List ℚ).length / 2 : ℕ) : ℤ)
      = false := by rw [hb0]; exact bothCriteria_single0
  rcases lastSuccess_shrink_char cfgEx [(5 : ℚ)] h0 with ⟨k, _, h2, h3, _, _⟩ | ⟨h1, _⟩
  · exfalso
    rw [hb0] at h3
    omega
  · exact h1

lemma lastSuccess_nil : lastSuccess cfgEx [] = -1 := by
  have h0 : bothCriteria cfgEx [] ((([] : List ℚ).length / 2 : ℕ) : ℤ) = false := by
    norm_num
    exact bothCriteria_nil0
  rcases lastSuccess_shrink_char cfgEx [] h0 with ⟨k, _, h2, h3, _, _⟩ | ⟨h1, _⟩
  · exfalso
    norm_num at h3
    omega
  · exact h1

lemma finalBoundary_single : finalBoundaryZ cfgEx [(5 : ℚ)] = 0 := by
  rw [finalBoundaryZ, lastSuccess_single]
  norm_num

lemma finalBoundary_nil : finalBoundaryZ cfgEx [] = 0 := by
  rw [finalBoundaryZ, lastSuccess_nil]
  norm_num

lemma planRows_ex :
    planRows cfgEx csEx 3 =
      [⟨1, some 0, 0, 8, some 1⟩, ⟨2, some 0, 0, 4, some 2⟩,
       ⟨4, some 0, 0, 2, some 4⟩, ⟨100, some 48, 2, 2, some 4⟩] := by
  norm_num [planRows, pyIdx_three, csEx, cfgEx, seriesMax, innerRow, outerStep2, tierPass,
    nanLe, nanRound, roundHalfEven]

lemma planRows_single : planRows cfgEx [(5 : ℚ)] 0 = [⟨5, none, 2, 2, none⟩] := by
  norm_num [planRows, pyIdx_zero, cfgEx, seriesMax, outerStep2, tierPass, nanLe, nanRound,
    roundHalfEven]

lemma planRows_nil : planRows cfgEx [] 0 = [] := by
  norm_num [planRows, pyIdx_zero, seriesMax]

lemma planRows_snapshot : planRows cfgEx [3, 8] 1 =
    [⟨3, some 0, 0, 2, some 3⟩, ⟨8, some 7, 4, 2, some 3⟩] := by
  norm_num [planRows, pyIdx_one, cfgEx, seriesMax, innerRow, outerStep2, tierPass, nanLe,
    nanRound, roundHalfEven]

lemma tierPass_snapshot_val :
    (tierPass cfgEx (outerStep2 cfgEx (some 3) 8)).deluted_concentration = some 3 := by
  norm_num [cfgEx, outerStep2, tierPass, nanLe, roundHalfEven]

lemma tierPass_scaled_val :
    (tierPassScaledRecompute cfgEx (outerStep2 cfgEx (some 3) 8)).deluted_concentration
      = some (32 / 11) := by
  norm_num [cfgEx, outerStep2, tierPassScaledRecompute, nanLe, roundHalfEven]

lemma totalMix_ex : totalMixVolume cfgEx csEx 3 = 16 := by
  norm_num [totalMixVolume, planRows_ex]

/-! ### Helper lemmas: total mix volume versus the search criteria -/

lemma deluted_volume_tierPass (cfg : Config) (hmc : Option ℚ) (c : ℚ) :
    (tierPass cfg (outerStep2 cfg hmc c)).deluted_volume = cfg.min_volume := by
  rw [tierPass]
  split
  · rfl
  · split
    · rfl
    · split
      · rfl
      · rfl

lemma sum_dvol_outer (cfg : Config) (hmc : Option ℚ) (l : List ℚ) :
    ((l.map (fun c => tierPass cfg (outerStep2 cfg hmc c))).map
        (fun r => r.deluted_volume)).sum = (l.length : ℚ) * cfg.min_volume := by
  induction l with
  | nil => simp
  | cons c t ih =>
    simp only [List.map_cons, List.sum_cons, List.length_cons, ih, deluted_volume_tierPass]
    push_cast
    ring

lemma sum_dvol_inner (cfg : Config) (m : ℚ) (l : List ℚ) :
    ((l.map (fun c => innerRow cfg m c)).map (fun r => r.deluted_volume)).sum
      = (deluteVolumes cfg.min_volume m l).sum := by
  rw [List.map_map]
  rfl

/-- The planner's total pooled volume at any boundary equals the
`inner_volume + outer_volume` quantity the search's fitting criterion tests
at that boundary. -/
lemma totalMix_eq (cfg : Config) (cs : List ℚ) (b : ℤ) :
    totalMixVolume cfg cs b = (searchDv cfg cs b).sum
      + ((cs.drop (pyIdx cs.length b)).length : ℚ) * cfg.min_volume := by
  rw [totalMixVolume]
  cases hm : seriesMax (cs.take (pyIdx cs.length b)) with
  | none =>
    rw [planRows.eq_def, hm, searchDv.eq_def, hm, sum_dvol_outer]
    simp
  | some m =>
    rw [planRows.eq_def, hm, searchDv.eq_def, hm]
    rw [List.map_append, List.sum_append, sum_dvol_inner, sum_dvol_outer]

lemma searchCrit_fst_iff (cfg : Config) (cs : List ℚ) (b : ℤ) :
    (searchCrit cfg cs b).1 = true ↔
      (searchDv cfg cs b).sum
        + ((cs.drop (pyIdx cs.length b)).length : ℚ) * cfg.min_volume
        ≤ cfg.max_result_volume := by
  simp [searchCrit]

/-! ### Claim theorems -/

/-- Claim C7: on every input on which the partition search returns a boundary
(`last_success` is not `-1`, so the planner does not fall back to boundary 0 on
total failure), the final `total_mix_volume` — the sum of `deluted_volume` over
all records at the resolved boundary — is at most `max_pool_volume`: the
planner recomputes the same inner dilute volumes that satisfied
`criteria_fitting` at that boundary, and every outer record contributes exactly
`min_volume`, which the tiered scaling pass never modifies. -/
theorem c7_pool_bound (cfg : Config) (cs : List ℚ)
    (hne : lastSuccess cfg cs ≠ -1) :
    totalMixVolume cfg cs (finalBoundaryZ cfg cs) ≤ cfg.max_result_volume := by
  obtain ⟨hpos, hboth⟩ := lastSuccess_result cfg cs hne
  have hfb : finalBoundaryZ cfg cs = lastSuccess cfg cs := by
    rw [finalBoundaryZ, if_pos hne]
  rw [hfb, totalMix_eq]
  rw [bothCriteria] at hboth
  exact (searchCrit_fst_iff cfg cs (lastSuccess cfg cs)).mp
    ((Bool.and_eq_true _ _).mp hboth).1

theorem c7_pool_bound_witness :
    totalMixVolume cfgEx csEx (finalBoundaryZ cfgEx csEx) ≤ cfgEx.max_result_volume :=
  c7_pool_bound cfgEx csEx (by rw [lastSuccess_ex]; norm_num)

/-- Claim C9: for every record of the planner output with nonzero
`deluted_volume` and nonzero `total_mix_volume`,
`mix_concentration = deluted_concentration * deluted_volume / total_mix_volume`,
and the volume-weighted re-derivation
`mix_concentration * total_mix_volume / deluted_volume` reproduces
`deluted_concentration` exactly (over the rationals, so within rounding
tolerance of the float computation). -/
theorem c9_mix_roundtrip (cfg : Config) (cs : List ℚ) (b : ℤ) (r : Row)
    (hr : r ∈ planRows cfg cs b) (hv : r.deluted_volume ≠ 0)
    (ht : totalMixVolume cfg cs b ≠ 0) (d : ℚ)
    (hd : r.deluted_concentration = some d) :
    mixConcentration cfg cs b r
        = some (d * r.deluted_volume / totalMixVolume cfg cs b)
    ∧ d * r.deluted_volume / totalMixVolume cfg cs b * totalMixVolume cfg cs b
        / r.deluted_volume = d := by
  constructor
  · rw [mixConcentration, hd]
    rfl
  · rw [div_mul_cancel₀ _ ht, mul_div_assoc, div_self hv, mul_one]

theorem c9_mix_roundtrip_witness :
    mixConcentration cfgEx csEx 3 ⟨1, some 0, 0, 8, some 1⟩
        = some (1 * (⟨1, some 0, 0, 8, some 1⟩ : Row).deluted_volume
            / totalMixVolume cfgEx csEx 3)
    ∧ 1 * (⟨1, some 0, 0, 8, some 1⟩ : Row).deluted_volume / totalMixVolume cfgEx csEx 3
        * totalMixVolume cfgEx csEx 3 / (⟨1, some 0, 0, 8, some 1⟩ : Row).deluted_volume
        = 1 :=
  c9_mix_roundtrip cfgEx csEx 3 ⟨1, some 0, 0, 8, some 1⟩
    (by rw [planRows_ex]; exact List.mem_cons_self _ _)
    (by norm_num)
    (by rw [totalMix_ex]; norm_num)
    1 rfl

/-- Claim C10: at the resolved boundary (including the fallback boundary 0),
every inner-group record — a row of index below the boundary in the
concentration-sorted table — has `water_for_delution = 0` and
`peptide_for_delution = 0` in the final output: those columns keep their `0.0`
initialisation because the step-2 assignment and the tiered pass write only
outer-group rows, and the inner-group pass writes only the two `deluted`
columns. -/
theorem c10_inner_frame (cfg : Config) (cs : List ℚ) (b : ℤ)
    (hb : b = finalBoundaryZ cfg cs) :
    ∀ r ∈ (planRows cfg cs b).take (pyIdx cs.length b),
      r.water_for_delution = some 0 ∧ r.peptide_for_delution = 0 := by
  intro r hr
  cases hm : seriesMax (cs.take (pyIdx cs.length b)) with
  | none =>
    rw [planRows.eq_def, hm] at hr
    rcases List.take_eq_nil_iff.mp (seriesMax_eq_none hm) with h0 | hnil
    · rw [h0] at hr
      simp at hr
    · rw [hnil] at hr
      simp at hr
  | some m =>
    have hplan : planRows cfg cs b
        = (cs.take (pyIdx cs.length b)).map (fun c => innerRow cfg m c)
          ++ (cs.drop (pyIdx cs.length b)).map
              (fun c => tierPass cfg (outerStep2 cfg (some m) c)) := by
      rw [planRows.eq_def, hm]
    rw [hplan] at hr
    have hrA : r ∈ (cs.take (pyIdx cs.length b)).map (fun c => innerRow cfg m c) := by
      rcases le_or_lt (pyIdx cs.length b) cs.length with hle | hgt
      · have hle2 : pyIdx cs.length b
            ≤ ((cs.take (pyIdx cs.length b)).map (fun c => innerRow cfg m c)).length := by
          rw [List.length_map, List.length_take]
          omega
        rw [List.take_append_of_le_length hle2] at hr
        exact List.mem_of_mem_take hr
      · have hB : cs.drop (pyIdx cs.length b) = [] := List.drop_eq_nil_of_le (by omega)
        rw [hB] at hr
        simp only [List.map_nil, List.append_nil] at hr
        exact List.mem_of_mem_take hr
    obtain ⟨c, hc, hceq⟩ := List.mem_map.mp hrA
    rw [← hceq]
    exact ⟨rfl, rfl⟩

theorem c10_inner_frame_witness :
    (⟨1, some 0, 0, 8, some 1⟩ : Row).water_for_delution = some 0
    ∧ (⟨1, some 0, 0, 8, some 1⟩ : Row).peptide_for_delution = 0 :=
  c10_inner_frame cfgEx csEx 3 (by rw [finalBoundary_ex]) ⟨1, some 0, 0, 8, some 1⟩
    (by rw [planRows_ex]; norm_num [pyIdx_three, csEx])

/-- Claim C1: for every candidate boundary `b` with a non-empty inner group
over a concentration-sorted list of positive concentrations, the search
evaluates its criteria as `half_amount = m * min_volume` with `m` the maximum
concentration of the inner group, `dilute_volume_i = round(half_amount /
conc_i)` for each inner-group record, `criteria_fitting` iff the sum of the
dilute volumes plus `(n - b) * min_volume` is at most `max_pool_volume`
(non-strict), and `criteria_lowest_fits` iff the maximum of the inner-group
dilute volumes is strictly below `max_usage_volume` — in particular the
second criterion is computed from the inner-group dilute volumes. -/
theorem c1_search_criteria (cfg : Config) (cs : List ℚ) (b : ℕ) (m : ℚ)
    (hpos : ∀ c ∈ cs, 0 < c) (hsort : List.Pairwise (fun x y => x ≤ y) cs)
    (hb : 0 < b) (hbn : b ≤ cs.length)
    (hmem : m ∈ cs.take b) (hmax : ∀ x ∈ cs.take b, x ≤ m) :
    ((searchCrit cfg cs (b : ℤ)).1 = true ↔
      ((cs.take b).map (fun c => roundHalfEven (m * cfg.min_volume / c))).sum
        + ((cs.length - b : ℕ) : ℚ) * cfg.min_volume ≤ cfg.max_result_volume)
    ∧ ((searchCrit cfg cs (b : ℤ)).2 = true ↔
      ∃ d ∈ (cs.take b).map (fun c => roundHalfEven (m * cfg.min_volume / c)),
        (∀ e ∈ (cs.take b).map (fun c => roundHalfEven (m * cfg.min_volume / c)), e ≤ d)
        ∧ d < cfg.max_volume) := by
  have hidx : pyIdx cs.length (b : ℤ) = b := pyIdx_natCast cs.length b
  have hsm : seriesMax (cs.take b) = some m := seriesMax_eq_max hmem hmax
  have hdv : searchDv cfg cs (b : ℤ)
      = (cs.take b).map (fun c => roundHalfEven (m * cfg.min_volume / c)) := by
    rw [searchDv.eq_def, hidx, hsm]
    rfl
  constructor
  · rw [searchCrit_fst_iff, hdv, hidx, List.length_drop]
  · have hne : (cs.take b).map (fun c => roundHalfEven (m * cfg.min_volume / c)) ≠ [] := by
      intro h
      rw [List.map_eq_nil_iff] at h
      exact List.ne_nil_of_mem hmem h
    obtain ⟨mx, hmx⟩ := seriesMax_isSome hne
    have hsnd : (searchCrit cfg cs (b : ℤ)).2 = decide (mx < cfg.max_volume) := by
      rw [searchCrit]
      simp only [hdv, hmx]
    rw [hsnd]
    constructor
    · intro h
      exact ⟨mx, seriesMax_mem hmx, seriesMax_le hmx, of_decide_eq_true h⟩
    · rintro ⟨d, hdmem, hdub, hdlt⟩
      exact decide_eq_true (lt_of_le_of_lt (hdub mx (seriesMax_mem hmx)) hdlt)

theorem c1_search_criteria_witness :
    (searchCrit cfgEx csEx ((2 : ℕ) : ℤ)).2 = true := by
  have h := c1_search_criteria cfgEx csEx 2 2
    (by norm_num [csEx]) (by norm_num [csEx, List.pairwise_cons])
    (by norm_num) (by norm_num [csEx])
    (by norm_num [csEx]) (by norm_num [csEx])
  exact h.2.mpr ⟨4, by norm_num [csEx, cfgEx, roundHalfEven],
    by norm_num [csEx, cfgEx, roundHalfEven], by norm_num [cfgEx]⟩

/-- Claim C6: given a non-empty inner group with reference concentration `m`
(the inner maximum), step 2 of the planner gives every outer-group record of
concentration `c` the raw unrounded `water_for_delution = min_volume * (c - m)
/ m`, `peptide_for_delution = min_volume`, `deluted_volume = min_volume` and
`deluted_concentration = c * min_volume / (min_volume + water_for_delution)`,
and the planner's rows are exactly the inner rows followed by the tier-passed
step-2 outer rows. -/
theorem c6_outer_step2 (cfg : Config) (cs : List ℚ) (b : ℕ) (m : ℚ)
    (hb : 0 < b) (hbn : b ≤ cs.length)
    (hmem : m ∈ cs.take b) (hmax : ∀ x ∈ cs.take b, x ≤ m) :
    planRows cfg cs (b : ℤ) =
      (cs.take b).map (fun c => innerRow cfg m c)
        ++ (cs.drop b).map (fun c => tierPass cfg (outerStep2 cfg (some m) c))
    ∧ ∀ c ∈ cs.drop b,
        outerStep2 cfg (some m) c =
          ⟨c, some (cfg.min_volume * (c - m) / m), cfg.min_volume, cfg.min_volume,
            some (c * cfg.min_volume
              / (cfg.min_volume + cfg.min_volume * (c - m) / m))⟩ := by
  have hidx : pyIdx cs.length (b : ℤ) = b := pyIdx_natCast cs.length b
  have hsm : seriesMax (cs.take b) = some m := seriesMax_eq_max hmem hmax
  constructor
  · rw [planRows.eq_def, hidx, hsm]
  · intro c hc
    rfl

theorem c6_outer_step2_witness :
    planRows cfgEx csEx ((3 : ℕ) : ℤ) =
      (csEx.take 3).map (fun c => innerRow cfgEx 4 c)
        ++ (csEx.drop 3).map (fun c => tierPass cfgEx (outerStep2 cfgEx (some 4) c))
    ∧ outerStep2 cfgEx (some 4) 100 =
        ⟨100, some (cfgEx.min_volume * (100 - 4) / 4), cfgEx.min_volume, cfgEx.min_volume,
          some (100 * cfgEx.min_volume
            / (cfgEx.min_volume + cfgEx.min_volume * (100 - 4) / 4))⟩ := by
  have h := c6_outer_step2 cfgEx csEx 3 4 (by norm_num) (by norm_num [csEx])
    (by norm_num [csEx]) (by norm_num [csEx])
  exact ⟨h.1, h.2 100 (by norm_num [csEx])⟩

/-- Claim C5 counterexample: for an outer record of concentration `8` over an
inner maximum of `3` (raw step-2 water `10/3`, medium tier of the spec
scenario's configuration), the code's tier pass leaves
`deluted_concentration = 3` — the step-2 value, recomputed from the
pre-scaling snapshot volumes — while the claim's recompute from the
now-scaled volumes (`water = 7`, `peptide = 4`) would give `32/11 ≠ 3`; the
full planner on `[3, 8]` at boundary 1 indeed outputs `3`. -/
theorem c5_recompute_counterexample :
    (tierPass cfgEx (outerStep2 cfgEx (some 3) 8)).deluted_concentration = some 3
    ∧ (tierPassScaledRecompute cfgEx (outerStep2 cfgEx (some 3) 8)).deluted_concentration
        = some (32 / 11)
    ∧ (some (3 : ℚ) : Option ℚ) ≠ some (32 / 11)
    ∧ planRows cfgEx [3, 8] 1 =
        [⟨3, some 0, 0, 2, some 3⟩, ⟨8, some 7, 4, 2, some 3⟩] :=
  ⟨tierPass_snapshot_val, tierPass_scaled_val, by norm_num, planRows_snapshot⟩

/-- Claim C5 (amended): the tier of an outer-group record is selected by
comparing the raw step-2 `water_for_delution` against the low, medium and high
thresholds in increasing order, first match winning; each tier scales and
rounds the water and peptide volumes (above all tiers they are only rounded);
and `deluted_concentration` keeps its step-2 value in EVERY branch — the
medium/high "recompute" reads the pre-scaling `iterrows` snapshot volumes
(`peptide = min_volume`, `water = raw step-2 water`), so it reproduces the
step-2 value rather than using the now-scaled volumes. -/
theorem c5_tier_amended (cfg : Config) (m c w : ℚ)
    (hw : w = cfg.min_volume * (c - m) / m) :
    ((tierPass cfg (outerStep2 cfg (some m) c)).deluted_concentration
        = (outerStep2 cfg (some m) c).deluted_concentration)
    ∧ (w ≤ cfg.lowVolume →
        tierPass cfg (outerStep2 cfg (some m) c) =
          ⟨c, some (roundHalfEven (w * cfg.lowFactor)),
            roundHalfEven (cfg.min_volume * cfg.lowFactor), cfg.min_volume,
            some (c * cfg.min_volume / (cfg.min_volume + w))⟩)
    ∧ (¬ w ≤ cfg.lowVolume → w ≤ cfg.mediumVolume →
        tierPass cfg (outerStep2 cfg (some m) c) =
          ⟨c, some (roundHalfEven (w * cfg.mediumFactor)),
            roundHalfEven (cfg.min_volume * cfg.mediumFactor), cfg.min_volume,
            some (c * cfg.min_volume / (cfg.min_volume + w))⟩)
    ∧ (¬ w ≤ cfg.lowVolume → ¬ w ≤ cfg.mediumVolume → w ≤ cfg.highVolume →
        tierPass cfg (outerStep2 cfg (some m) c) =
          ⟨c, some (roundHalfEven (w * cfg.highFactor)),
            roundHalfEven (cfg.min_volume * cfg.highFactor), cfg.min_volume,
            some (c * cfg.min_volume / (cfg.min_volume + w))⟩)
    ∧ (¬ w ≤ cfg.lowVolume → ¬ w ≤ cfg.mediumVolume → ¬ w ≤ cfg.highVolume →
        tierPass cfg (outerStep2 cfg (some m) c) =
          ⟨c, some (roundHalfEven w), roundHalfEven cfg.min_volume, cfg.min_volume,
            some (c * cfg.min_volume / (cfg.min_volume + w))⟩) := by
  subst hw
  refine ⟨?_, ?_, ?_, ?_, ?_⟩
  · rw [tierPass]
    split
    · rfl
    · split
      · rfl
      · split
        · rfl
        · rfl
  · intro h1
    rw [tierPass, if_pos (show nanLe (outerStep2 cfg (some m) c).water_for_delution
        cfg.lowVolume = true from decide_eq_true h1)]
    rfl
  · intro h1 h2
    rw [tierPass,
      if_neg (show ¬ nanLe (outerStep2 cfg (some m) c).water_for_delution
        cfg.lowVolume = true from fun hh => h1 (of_decide_eq_true hh)),
      if_pos (show nanLe (outerStep2 cfg (some m) c).water_for_delution
        cfg.mediumVolume = true from decide_eq_true h2)]
    rfl
  · intro h1 h2 h3
    rw [tierPass,
      if_neg (show ¬ nanLe (outerStep2 cfg (some m) c).water_for_delution
        cfg.lowVolume = true from fun hh => h1 (of_decide_eq_true hh)),
      if_neg (show ¬ nanLe (outerStep2 cfg (some m) c).water_for_delution
        cfg.mediumVolume = true from fun hh => h2 (of_decide_eq_true hh)),
      if_pos (show nanLe (outerStep2 cfg (some m) c).water_for_delution
        cfg.highVolume = true from decide_eq_true h3)]
    rfl
  · intro h1 h2 h3
    rw [tierPass,
      if_neg (show ¬ nanLe (outerStep2 cfg (some m) c).water_for_delution
        cfg.lowVolume = true from fun hh => h1 (of_decide_eq_true hh)),
      if_neg (show ¬ nanLe (outerStep2 cfg (some m) c).water_for_delution
        cfg.mediumVolume = true from fun hh => h2 (of_decide_eq_true hh)),
      if_neg (show ¬ nanLe (outerStep2 cfg (some m) c).water_for_delution
        cfg.highVolume = true from fun hh => h3 (of_decide_eq_true hh))]
    rfl

theorem c5_tier_amended_witness :
    (tierPass cfgEx (outerStep2 cfgEx (some 3) 8)).deluted_concentration
        = (outerStep2 cfgEx (some 3) 8).deluted_concentration
    ∧ tierPass cfgEx (outerStep2 cfgEx (some 3) 8) =
        ⟨8, some (roundHalfEven (10 / 3 * cfgEx.mediumFactor)),
          roundHalfEven (cfgEx.min_volume * cfgEx.mediumFactor), cfgEx.min_volume,
          some (8 * cfgEx.min_volume / (cfgEx.min_volume + 10 / 3))⟩ := by
  have h := c5_tier_amended cfgEx 3 8 (10 / 3) (by norm_num [cfgEx])
  exact ⟨h.1, h.2.2.1 (by norm_num [cfgEx]) (by norm_num [cfgEx])⟩

/-- Claim C2 counterexample: in the spec scenario (concentrations
`[1, 2, 4, 100]`, `min_pipette_volume = 2`, `max_peptide_usage_volume = 50`,
`max_pool_volume = 20`), at the initial boundary `b = 2` the code's
`criteria_lowest_fits` is `True`, not `False` as the claim asserts: the
criterion is computed from the inner-group dilute volumes `[4, 2]`
(`max = 4 < 50`), not from the outer water volumes `2` and `98`. -/
theorem c2_initial_counterexample :
    (searchCrit cfgEx csEx 2).2 = true := by
  rw [searchCrit_ex2]

/-- Claim C2 (amended): in the spec scenario, at the initial boundary `b = 2`
the search computes `half_max_conc = 2`, `half_amount = 4`, inner dilute
volumes `[4, 2]` (`inner_volume = 6`), `outer_volume = 4`,
`criteria_fitting = True` and `criteria_lowest_fits = True` (the maximum
inner dilute volume `4` is below `50`), so the initial state IS both-true and
the search enters the grow loop from `b = 2`. -/
theorem c2_initial_amended :
    ((csEx.length / 2 : ℕ) : ℤ) = 2
    ∧ seriesMax (csEx.take 2) = some 2
    ∧ (2 : ℚ) * cfgEx.min_volume = 4
    ∧ searchDv cfgEx csEx 2 = [4, 2]
    ∧ (searchDv cfgEx csEx 2).sum = 6
    ∧ ((csEx.drop (pyIdx csEx.length 2)).length : ℚ) * cfgEx.min_volume = 4
    ∧ searchCrit cfgEx csEx 2 = (true, true)
    ∧ lastSuccess cfgEx csEx = growLoop cfgEx csEx (csEx.length + 2) 2 2 := by
  refine ⟨by norm_num [csEx], ?_, by norm_num [cfgEx], searchDv_ex2, ?_, ?_,
    searchCrit_ex2, ?_⟩
  · norm_num [csEx, seriesMax]
  · rw [searchDv_ex2]
    norm_num
  · norm_num [csEx, pyIdx_two, cfgEx]
  · rw [lastSuccess]
    rw [show ((csEx.length / 2 : ℕ) : ℤ) = 2 from by norm_num [csEx]]
    rw [if_pos bothCriteria_ex2]

/-- Claim C3 counterexample: in the spec scenario (`n = 4`) the grow search
reaches `b = 3 = n - 1` with both criteria still holding there (and at the
initial `b = 2`), yet it returns boundary `3` instead of signalling "no
feasible boundary found": holding at `n - 1` merely makes the loop advance
and re-evaluate at `b = n = 4`, where the criteria fail. -/
theorem c3_exhaustion_counterexample :
    csEx.length = 4
    ∧ bothCriteria cfgEx csEx 2 = true
    ∧ bothCriteria cfgEx csEx 3 = true
    ∧ lastSuccess cfgEx csEx = 3 :=
  ⟨by norm_num [csEx], bothCriteria_ex2, bothCriteria_ex3, lastSuccess_ex⟩

/-- Claim C3 (amended): if both criteria hold at the initial boundary
`b = n // 2`, the grow loop advances `b` by `+1`, re-evaluating both criteria
at each step, and returns the last `b` for which both criteria held (the
criteria failing at `b + 1`); the search is exhausted and signals "no
feasible boundary found" (`-1`) instead of returning a boundary only when
both criteria hold at every candidate through `b = n` inclusive. -/
theorem c3_grow_amended (cfg : Config) (cs : List ℚ)
    (h0 : bothCriteria cfg cs ((cs.length / 2 : ℕ) : ℤ) = true) :
    (lastSuccess cfg cs = -1 ∧
      ∀ j : ℤ, ((cs.length / 2 : ℕ) : ℤ) ≤ j → j ≤ (cs.length : ℤ) →
        bothCriteria cfg cs j = true) ∨
    (∃ k : ℤ, lastSuccess cfg cs = k ∧ ((cs.length / 2 : ℕ) : ℤ) ≤ k ∧
      k ≤ (cs.length : ℤ) - 1 ∧
      (∀ j : ℤ, ((cs.length / 2 : ℕ) : ℤ) ≤ j → j ≤ k → bothCriteria cfg cs j = true) ∧
      bothCriteria cfg cs (k + 1) = false) :=
  lastSuccess_grow_char cfg cs h0

theorem c3_grow_amended_witness :
    (lastSuccess cfgEx csEx = -1 ∧
      ∀ j : ℤ, ((csEx.length / 2 : ℕ) : ℤ) ≤ j → j ≤ (csEx.length : ℤ) →
        bothCriteria cfgEx csEx j = true) ∨
    (∃ k : ℤ, lastSuccess cfgEx csEx = k ∧ ((csEx.length / 2 : ℕ) : ℤ) ≤ k ∧
      k ≤ (csEx.length : ℤ) - 1 ∧
      (∀ j : ℤ, ((csEx.length / 2 : ℕ) : ℤ) ≤ j → j ≤ k →
        bothCriteria cfgEx csEx j = true) ∧
      bothCriteria cfgEx csEx (k + 1) = false) :=
  c3_grow_amended cfgEx csEx
    (by rw [show ((csEx.length / 2 : ℕ) : ℤ) = 2 from by norm_num [csEx]]
        exact bothCriteria_ex2)

/-- Claim C4: if the two criteria do not both hold at the initial boundary
`b = n // 2`, the shrink loop decrements `b`, re-evaluating both criteria at
each step, and the first `b` at which both criteria hold is the answer (all
later candidates between it and the start having failed); if `b` runs below
`0` with no candidate in `[0, n // 2]` satisfying both, the search signals
`-1` and the boundary falls back to `0`, so every peptide lands in the outer
(diluted) group — a completed planner result, not a hard error. -/
theorem c4_shrink_fallback (cfg : Config) (cs : List ℚ)
    (h0 : bothCriteria cfg cs ((cs.length / 2 : ℕ) : ℤ) = false) :
    (∃ k : ℤ, lastSuccess cfg cs = k ∧ 0 ≤ k ∧ k < ((cs.length / 2 : ℕ) : ℤ) ∧
      bothCriteria cfg cs k = true ∧
      (∀ j : ℤ, k < j → j ≤ ((cs.length / 2 : ℕ) : ℤ) → bothCriteria cfg cs j = false) ∧
      finalBoundaryZ cfg cs = k) ∨
    (lastSuccess cfg cs = -1 ∧
      (∀ j : ℤ, 0 ≤ j → j ≤ ((cs.length / 2 : ℕ) : ℤ) → bothCriteria cfg cs j = false) ∧
      finalBoundaryZ cfg cs = 0 ∧
      planRows cfg cs (finalBoundaryZ cfg cs)
        = cs.map (fun c => tierPass cfg (outerStep2 cfg none c))) := by
  rcases lastSuccess_shrink_char cfg cs h0 with ⟨k, h1, h2, h3, h4, h5⟩ | ⟨h1, h2⟩
  · left
    refine ⟨k, h1, h2, h3, h4, h5, ?_⟩
    rw [finalBoundaryZ, if_pos (show lastSuccess cfg cs ≠ -1 by rw [h1]; omega)]
    exact h1
  · right
    have hfb : finalBoundaryZ cfg cs = 0 := by
      rw [finalBoundaryZ, h1]
      norm_num
    refine ⟨h1, h2, hfb, ?_⟩
    rw [hfb]
    rfl

theorem c4_shrink_fallback_witness :
    (∃ k : ℤ, lastSuccess cfgTight [1, 100] = k ∧ 0 ≤ k ∧
      k < ((([1, 100] : List ℚ).length / 2 : ℕ) : ℤ) ∧
      bothCriteria cfgTight [1, 100] k = true ∧
      (∀ j : ℤ, k < j → j ≤ ((([1, 100] : List ℚ).length / 2 : ℕ) : ℤ) →
        bothCriteria cfgTight [1, 100] j = false) ∧
      finalBoundaryZ cfgTight [1, 100] = k) ∨
    (lastSuccess cfgTight [1, 100] = -1 ∧
      (∀ j : ℤ, 0 ≤ j → j ≤ ((([1, 100] : List ℚ).length / 2 : ℕ) : ℤ) →
        bothCriteria cfgTight [1, 100] j = false) ∧
      finalBoundaryZ cfgTight [1, 100] = 0 ∧
      planRows cfgTight [1, 100] (finalBoundaryZ cfgTight [1, 100])
        = ([1, 100] : List ℚ).map (fun c => tierPass cfgTight (outerStep2 cfgTight none c))) :=
  c4_shrink_fallback cfgTight [1, 100]
    (by rw [show ((([1, 100] : List ℚ).length / 2 : ℕ) : ℤ) = 1 from by norm_num]
        exact bothCriteria_tight1)

/-- Claim C8 evaluation at the failing inputs: with no records the result is
empty, as claimed; but with a single record (concentration 5) there is no
explicit degenerate-input check — the search falls back to boundary `0`, the
record lands in the outer (diluted) group, and its `water_for_delution`,
`deluted_concentration` and `mix_concentration` are silently `NaN`
(`none`), coming from the division by the empty inner group's undefined
maximum, instead of the record passing through as neat. -/
theorem c8_degenerate_eval :
    finalBoundaryZ cfgEx [] = 0
    ∧ planRows cfgEx [] (finalBoundaryZ cfgEx []) = []
    ∧ finalBoundaryZ cfgEx [(5 : ℚ)] = 0
    ∧ planRows cfgEx [(5 : ℚ)] (finalBoundaryZ cfgEx [(5 : ℚ)]) = [⟨5, none, 2, 2, none⟩]
    ∧ mixConcentration cfgEx [(5 : ℚ)] (finalBoundaryZ cfgEx [(5 : ℚ)])
        ⟨5, none, 2, 2, none⟩ = none := by
  refine ⟨finalBoundary_nil, ?_, finalBoundary_single, ?_, rfl⟩
  · rw [finalBoundary_nil, planRows_nil]
  · rw [finalBoundary_single, planRows_single]

end PeptidePooler

